import Mathlib

/-!
# Security Hub finders and generated service-tag adapters

A shallow embedding of

* `internal/service/securityhub/find.go`: the five `Find*` lookup helpers, and
* `aws/internal/keyvaluetags/generators/servicetags/main.go`: the Go code
  emitted by `templateBody` for list-shaped services,

followed by theorems about their behaviour.

Conventions of the embedding.

* A Go function that may panic returns `Except RuntimePanic _`.
* A Go `error` is `Option _`, with `none` for `nil`.
* A `*string` whose identity can be observed (the SDK structures of
  `find.go`) is `Option (Ref String)`: `none` is the nil pointer, and a
  reference carries the address of the variable it points to. Allocation
  is explicit: `aws.String` takes the next free address.
* A pointer returned as a result (`*types.ActionTarget`, ...) is the
  `Option` of the value it points to; so is a `*string` of the generated tag
  code, which compares no pointers.
-/

set_option autoImplicit false

/-! ## Go runtime -/

/-- Run-time panics of the Go program. -/
inductive RuntimePanic where
  /-- The panic "invalid memory address or nil pointer dereference". -/
  | nilDereference
  /-- The panic "index out of range". -/
  | indexOutOfRange
  deriving DecidableEq, Repr

/-- Non-nil pointer: the address of the variable pointed to, and its content. -/
structure Ref (α : Type) where
  addr : Nat
  val : α
  deriving DecidableEq, Repr

/-- Go pointer type `*α`; `none` is `nil`. -/
abbrev Ptr (α : Type) := Option (Ref α)

/-- Go `p == q` on pointers: both nil, or both pointing to the same variable. -/
def Ptr.eq {α : Type} (p q : Ptr α) : Bool :=
  match p, q with
  | none, none => true
  | some r, some s => r.addr == s.addr
  | _, _ => false

/-- Allocator state: the next free address. Every live variable has a smaller address. -/
abbrev Heap := Nat

/-- Go `aws.ToString(p)`: the string pointed to, `""` for the nil pointer. -/
def aws.ToString (p : Ptr String) : String :=
  match p with
  | none => ""
  | some r => r.val

/-- Go `aws.StringValue(p)` of the version 1 SDK, used by the generated tag code, where a
`*string` is the `Option` of the string pointed to: that string, `""` for nil. -/
def aws.StringValue (p : Option String) : String :=
  match p with
  | none => ""
  | some s => s

/-- Go `aws.Int32(v)`: a pointer to a newly allocated variable holding `v`. -/
def aws.Int32 (heap : Heap) (v : Int) : Ptr Int := some ⟨heap, v⟩

/-- Go `aws.String(v)`: a pointer to a newly allocated variable holding `v`. -/
def aws.String (heap : Heap) (v : String) : Ptr String := some ⟨heap, v⟩


/-! ## AWS SDK: Security Hub types and client

The structures of `github.com/aws/aws-sdk-go-v2/service/securityhub` that the
finders build, read or return. `ResultMetadata` is left out. -/

namespace securityhub

/-- SDK `types.ActionTarget`. -/
structure ActionTarget where
  ActionTargetArn : Ptr String
  Description : Ptr String
  Name : Ptr String
  deriving DecidableEq, Repr

/-- SDK `types.AdminAccount`; `Status` is the string-valued `AdminStatus`. -/
structure AdminAccount where
  AccountId : Ptr String
  Status : String
  deriving DecidableEq, Repr

/-- SDK `types.Insight`; of `Filters` only whether the pointer is set is kept, no finder reads it. -/
structure Insight where
  Filters : Ptr Unit
  GroupByAttribute : Ptr String
  InsightArn : Ptr String
  Name : Ptr String
  deriving DecidableEq, Repr

/-- SDK `types.StandardsControl`; the time stamp is kept as seconds. -/
structure StandardsControl where
  ControlId : Ptr String
  ControlStatus : String
  ControlStatusUpdatedAt : Ptr Int
  Description : Ptr String
  DisabledReason : Ptr String
  RelatedRequirements : List String
  RemediationUrl : Ptr String
  SeverityRating : String
  StandardsControlArn : Ptr String
  Title : Ptr String
  deriving DecidableEq, Repr

/-- Go zero value of `types.StandardsControl`, the value of `var result types.StandardsControl`. -/
def StandardsControl.zero : StandardsControl :=
  { ControlId := none, ControlStatus := "", ControlStatusUpdatedAt := none, Description := none,
    DisabledReason := none, RelatedRequirements := [], RemediationUrl := none,
    SeverityRating := "", StandardsControlArn := none, Title := none }

/-- SDK `securityhub.DescribeActionTargetsInput`. -/
structure DescribeActionTargetsInput where
  ActionTargetArns : List String
  MaxResults : Ptr Int
  NextToken : Ptr String
  deriving DecidableEq, Repr

/-- SDK `securityhub.DescribeActionTargetsOutput`. -/
structure DescribeActionTargetsOutput where
  ActionTargets : List ActionTarget
  NextToken : Ptr String
  deriving DecidableEq, Repr

/-- SDK `securityhub.GetFindingAggregatorInput`. -/
structure GetFindingAggregatorInput where
  FindingAggregatorArn : Ptr String
  deriving DecidableEq, Repr

/-- SDK `securityhub.GetFindingAggregatorOutput`. -/
structure GetFindingAggregatorOutput where
  FindingAggregationRegion : Ptr String
  FindingAggregatorArn : Ptr String
  RegionLinkingMode : Ptr String
  Regions : List String
  deriving DecidableEq, Repr

/-- SDK `securityhub.ListOrganizationAdminAccountsInput`. -/
structure ListOrganizationAdminAccountsInput where
  MaxResults : Ptr Int
  NextToken : Ptr String
  deriving DecidableEq, Repr

/-- SDK `securityhub.ListOrganizationAdminAccountsOutput`. -/
structure ListOrganizationAdminAccountsOutput where
  AdminAccounts : List AdminAccount
  NextToken : Ptr String
  deriving DecidableEq, Repr

/-- SDK `securityhub.GetInsightsInput`. -/
structure GetInsightsInput where
  InsightArns : List String
  MaxResults : Ptr Int
  NextToken : Ptr String
  deriving DecidableEq, Repr

/-- SDK `securityhub.GetInsightsOutput`. -/
structure GetInsightsOutput where
  Insights : List Insight
  NextToken : Ptr String
  deriving DecidableEq, Repr

/-- SDK `securityhub.DescribeStandardsControlsInput`. -/
structure DescribeStandardsControlsInput where
  MaxResults : Ptr Int
  NextToken : Ptr String
  StandardsSubscriptionArn : Ptr String
  deriving DecidableEq, Repr

/-- SDK `securityhub.DescribeStandardsControlsOutput`. -/
structure DescribeStandardsControlsOutput where
  Controls : List StandardsControl
  NextToken : Ptr String
  deriving DecidableEq, Repr

/-- Non-nil `error` returned by an SDK operation: a `*types.ResourceNotFoundException`,
an error of another kind (identified by its code), or an error wrapping another one
(what `Unwrap` returns), as the SDK wraps service errors in operation errors. -/
inductive SdkError where
  | resourceNotFoundException (message : String)
  | other (code : String) (message : String)
  | wrapped (context : String) (inner : SdkError)
  deriving DecidableEq, Repr

/-- The `*securityhub.Client` as far as the finders use it: each operation maps the request
to the pair `(output, err)` it returns. The context argument is left out. -/
structure Client where
  DescribeActionTargets :
    DescribeActionTargetsInput → Option DescribeActionTargetsOutput × Option SdkError
  GetFindingAggregator :
    GetFindingAggregatorInput → Option GetFindingAggregatorOutput × Option SdkError
  ListOrganizationAdminAccounts :
    ListOrganizationAdminAccountsInput →
      Option ListOrganizationAdminAccountsOutput × Option SdkError
  GetInsights : GetInsightsInput → Option GetInsightsOutput × Option SdkError
  DescribeStandardsControls :
    DescribeStandardsControlsInput → Option DescribeStandardsControlsOutput × Option SdkError

/-! ## Error values of the provider -/

/-- The `retry.NotFoundError` of the plugin SDK, with the two fields the finders set. -/
structure NotFoundError (Req : Type) where
  LastError : Option SdkError
  LastRequest : Req
  deriving DecidableEq, Repr

/-- The errors a finder with request type `Req` returns: the client's error itself,
a `*retry.NotFoundError`, an empty-result error or a too-many-results error. -/
inductive FinderError (Req : Type) where
  | sdk (err : SdkError)
  | notFound (e : NotFoundError Req)
  | emptyResult (lastRequest : Req)
  | tooManyResults (count : Nat) (lastRequest : Req)
  deriving DecidableEq, Repr

/-- What a finder returning `(*T, error)` does: it panics, or returns the pair. -/
abbrev FindResult (T Req : Type) := Except RuntimePanic (Option T × Option (FinderError Req))

/-- Go `errors.As` to a `*types.ResourceNotFoundException` on a non-nil error: the error or
one in its `Unwrap` chain is a resource-not-found exception. -/
def SdkError.isResourceNotFound : SdkError → Bool
  | .resourceNotFoundException _ => true
  | .other _ _ => false
  | .wrapped _ inner => inner.isResourceNotFound

end securityhub

/-- Modelled from the spec: `errs.IsA[*types.ResourceNotFoundException]` of package
`internal/errs`, which is not among the sources. It tells whether the client error is of the
"resource not found" class; the nil error is not. -/
def errs.IsA (err : Option securityhub.SdkError) : Bool :=
  match err with
  | none => false
  | some e => e.isResourceNotFound

/-- Modelled from the spec: `tfresource.NewEmptyResultError` of package `internal/tfresource`,
which is not among the sources: the "empty result" error with the request attached. -/
def tfresource.NewEmptyResultError {Req : Type} (lastRequest : Req) :
    securityhub.FinderError Req :=
  .emptyResult lastRequest

/-- Modelled from the spec: `tfresource.NewTooManyResultsError` of package
`internal/tfresource`, which is not among the sources: the "too many results" error carrying
the count, with the request attached. -/
def tfresource.NewTooManyResultsError {Req : Type} (count : Nat) (lastRequest : Req) :
    securityhub.FinderError Req :=
  .tooManyResults count lastRequest

/-! ## The finders of `internal/service/securityhub/find.go` -/

namespace securityhub

/-- Go `FindActionTargetByARN`. -/
def FindActionTargetByARN (conn : Client) (arn : String) :
    FindResult ActionTarget DescribeActionTargetsInput :=
  let input : DescribeActionTargetsInput :=
    { ActionTargetArns := [arn], MaxResults := none, NextToken := none }
  match conn.DescribeActionTargets input with
  | (output, err) =>
    if errs.IsA err then
      .ok (none, some (.notFound { LastError := err, LastRequest := input }))
    else
      match err with
      | some e => .ok (none, some (.sdk e))
      | none =>
        match output with
        | none => .ok (none, some (tfresource.NewEmptyResultError input))
        | some out =>
          if out.ActionTargets.length == 0 then
            .ok (none, some (tfresource.NewEmptyResultError input))
          else
            let count := out.ActionTargets.length
            if count > 1 then
              .ok (none, some (tfresource.NewTooManyResultsError count input))
            else
              match out.ActionTargets[0]? with
              | some target => .ok (some target, none)
              | none => .error .indexOutOfRange

/-- Go `FindFindingAggregatorByARN`. -/
def FindFindingAggregatorByARN (heap : Heap) (conn : Client) (arn : String) :
    FindResult GetFindingAggregatorOutput GetFindingAggregatorInput :=
  let input : GetFindingAggregatorInput := { FindingAggregatorArn := aws.String heap arn }
  match conn.GetFindingAggregator input with
  | (output, err) =>
    if errs.IsA err then
      .ok (none, some (.notFound { LastError := err, LastRequest := input }))
    else
      match err with
      | some e => .ok (none, some (.sdk e))
      | none =>
        match output with
        | none => .ok (none, some (tfresource.NewEmptyResultError input))
        | some out => .ok (some out, none)

/-- The `for ... range output.AdminAccounts` loop of `FindAdminAccount`: `some` for the
`return &adminAccount, nil` inside the loop, `none` when the loop runs to its end. Each
iteration evaluates `aws.String(adminAccountID)`, which allocates, and compares the two
pointers. -/
def FindAdminAccount.loop (adminAccountID : String) :
    Heap → List AdminAccount → Option AdminAccount
  | _, [] => none
  | heap, adminAccount :: rest =>
    if Ptr.eq adminAccount.AccountId (aws.String heap adminAccountID) then
      some adminAccount
    else
      FindAdminAccount.loop adminAccountID (heap + 1) rest

/-- Go `FindAdminAccount`. -/
def FindAdminAccount (heap : Heap) (conn : Client) (adminAccountID : String) :
    FindResult AdminAccount ListOrganizationAdminAccountsInput :=
  let input : ListOrganizationAdminAccountsInput := { MaxResults := none, NextToken := none }
  match conn.ListOrganizationAdminAccounts input with
  | (output, err) =>
    if errs.IsA err then
      .ok (none, some (.notFound { LastError := err, LastRequest := input }))
    else
      match err with
      | some e => .ok (none, some (.sdk e))
      | none =>
        match output with
        | none => .error .nilDereference
        | some out =>
          match FindAdminAccount.loop adminAccountID heap out.AdminAccounts with
          | some adminAccount => .ok (some adminAccount, none)
          | none => .ok (none, err.map .sdk)

/-- Go `FindInsight`. -/
def FindInsight (heap : Heap) (conn : Client) (arn : String) :
    FindResult Insight GetInsightsInput :=
  let input : GetInsightsInput :=
    { InsightArns := [arn], MaxResults := aws.Int32 heap 1, NextToken := none }
  match conn.GetInsights input with
  | (output, err) =>
    if errs.IsA err then
      .ok (none, some (.notFound { LastError := err, LastRequest := input }))
    else
      match err with
      | some e => .ok (none, some (.sdk e))
      | none =>
        match output with
        | none => .ok (none, none)
        | some out =>
          if out.Insights.length == 0 then
            .ok (none, none)
          else
            match out.Insights[0]? with
            | some insight => .ok (some insight, none)
            | none => .error .indexOutOfRange

/-- The `for ... range output.Controls` loop of the standards-control finder, started with
the current value of `result`: the first control whose ARN is the one looked for, or
`result` unchanged. -/
def FindStandardsControl.loop (standardsControlARN : String) :
    List StandardsControl → StandardsControl → StandardsControl
  | [], result => result
  | control :: rest, result =>
    if aws.ToString control.StandardsControlArn == standardsControlARN then
      control
    else
      FindStandardsControl.loop standardsControlARN rest result

/-- Go `FindStandardsControlByStandardsSubscriptionARNAndStandardsControlARN`. The loop over
`output.Controls` comes before any test of `err` or `output`. -/
def FindStandardsControlByStandardsSubscriptionARNAndStandardsControlARN (heap : Heap)
    (conn : Client) (standardsSubscriptionARN standardsControlARN : String) :
    FindResult StandardsControl DescribeStandardsControlsInput :=
  let input : DescribeStandardsControlsInput :=
    { MaxResults := none, NextToken := none,
      StandardsSubscriptionArn := aws.String heap standardsSubscriptionARN }
  match conn.DescribeStandardsControls input with
  | (output, err) =>
    match output with
    | none => .error .nilDereference
    | some out =>
      let result := FindStandardsControl.loop standardsControlARN out.Controls
        StandardsControl.zero
      if errs.IsA err then
        .ok (none, some (.notFound { LastError := err, LastRequest := input }))
      else
        match err with
        | some e => .ok (none, some (.sdk e))
        | none =>
          if output.isNone then
            .ok (none, some (tfresource.NewEmptyResultError input))
          else
            .ok (some result, none)

end securityhub

/-! ## Go maps

A Go `map[string]V` is the list of its entries, with pairwise distinct keys. The order of
the list stands for the order in which `range` visits the entries, which Go leaves open;
no statement below depends on it. -/

/-- Go `map[string]V`. -/
abbrev GoMap (V : Type) := List (String × V)

namespace GoMap

variable {V : Type}

/-- Go `v, ok := m[k]`: `none` when `ok` is false. -/
def get? : GoMap V → String → Option V
  | [], _ => none
  | (k', v) :: rest, k => if k' = k then some v else get? rest k

/-- Go `m[k] = v`: replaces the entry for `k`, or adds one. -/
def set : GoMap V → String → V → GoMap V
  | [], k, v => [(k, v)]
  | (k', v') :: rest, k, v => if k' = k then (k', v) :: rest else (k', v') :: set rest k v

/-- The keys of the map. -/
def keys (m : GoMap V) : List String := m.map Prod.fst

end GoMap

/-! ## Generated service-tag code

The Go functions that `templateBody` of `generators/servicetags/main.go` emits for one
list-shaped service. What the template takes from the service tables of package
`keyvaluetags` (`ServiceTagType2`, `ServiceTagTypeIdentifierField`, ...), which are not among
the sources, is a parameter: the `ServiceDescriptor`; so is the method `Map` of the tag set,
of which the template fixes the value type only. No pointer is compared in this code, so
a `*string` is the `Option` of the string pointed to, `aws.String(s)` is `some s`. -/

/-- Go `strconv.ParseBool`, with the error dropped as in `b, _ := strconv.ParseBool(v)`. -/
def strconv.ParseBool (s : String) : Bool :=
  s = "1" || s = "t" || s = "T" || s = "TRUE" || s = "true" || s = "True"

namespace keyvaluetags

/-- The values of the template functions for one service: the results of `TagType2`,
`TagTypeIdentifierField`, `TagResourceTypeField` and `TagTypeAdditionalBoolFields` (the empty
string or list when the service has none), and the service name. In a template condition a
string or list counts as true when it is not empty. -/
structure ServiceDescriptor where
  serviceName : String
  TagType2 : String
  TagTypeIdentifierField : String
  TagResourceTypeField : String
  TagTypeAdditionalBoolFields : List String
  deriving DecidableEq, Repr

/-- Go `TagData`, the value record of a tag. -/
structure TagData where
  AdditionalBoolFields : GoMap (Option Bool)
  AdditionalStringFields : GoMap (Option String)
  Value : Option String
  deriving DecidableEq, Repr

/-- Go `KeyValueTags`, a `map[string]*TagData`. -/
abbrev KeyValueTags := GoMap (Option TagData)

/-- A tag item of the service SDK (`TagType` or `TagType2`): its key and value fields, and
its further pointer fields by field name. -/
structure ServiceTag where
  Key : Option String
  Value : Option String
  BoolFields : GoMap (Option Bool)
  StringFields : GoMap (Option String)
  deriving DecidableEq, Repr

/-- Go `tag.F` for a `*bool` field `F` of a tag item. -/
def ServiceTag.boolField (tag : ServiceTag) (name : String) : Option Bool :=
  match tag.BoolFields.get? name with
  | some p => p
  | none => none

/-- A dynamically typed scalar found in a configuration record. -/
inductive TfValue where
  | nil
  | string (s : String)
  | bool (b : Bool)
  | int (n : Int)
  deriving DecidableEq, Repr

/-- An element of a `[]interface{}`: a `map[string]interface{}` record, or a value of
another dynamic type. -/
inductive TfItem where
  | record (tfMap : GoMap TfValue)
  | other (v : TfValue)
  deriving DecidableEq, Repr

/-- Go `v, ok := tfMap[name].(string)`: `none` when `ok` is false. -/
def assertString (tfMap : GoMap TfValue) (name : String) : Option String :=
  match tfMap.get? name with
  | some (.string s) => some s
  | _ => none

/-- Go `v, ok := tfMap[name].(bool)`: `none` when `ok` is false. -/
def assertBool (tfMap : GoMap TfValue) (name : String) : Option Bool :=
  match tfMap.get? name with
  | some (.bool b) => some b
  | _ => none

/-- The dynamic type of the `tags interface{}` argument of the generated
`KeyValueTags` function. -/
inductive TagsInput where
  /-- A `[]*pkg.TagType`; an element may be the nil pointer. -/
  | primary (tags : List (Option ServiceTag))
  /-- A `[]*pkg.TagType2`; an element may be the nil pointer. -/
  | alternate (tags : List (Option ServiceTag))
  /-- A non-nil `*schema.Set`, given by the result of its `List()`. -/
  | set (list : List TfItem)
  /-- A `[]interface{}`. -/
  | list (items : List TfItem)
  /-- A value of any other type. -/
  | other
  deriving DecidableEq, Repr

/-- The argument of `New`, as far as the generated code calls it. -/
inductive NewInput where
  | tagDataMap (m : GoMap (Option TagData))
  | stringPtrMap (m : GoMap (Option String))
  | nil

/-- The `*TagData` that `New` stores for a `*string` value: nil for nil, else a record with
that value and no auxiliary fields. -/
def New.wrap (v : Option String) : Option TagData :=
  match v with
  | none => none
  | some s => some { AdditionalBoolFields := [], AdditionalStringFields := [], Value := some s }

/-- Modelled from the spec: `New` of package `keyvaluetags`, which is not among the sources
(`fromMap`): it wraps a native mapping, a nil value is kept as "key present, value absent";
`New(nil)` is the empty tag set. -/
def New : NewInput → KeyValueTags
  | .tagDataMap m => m
  | .stringPtrMap m => m.map fun kv => (kv.1, New.wrap kv.2)
  | .nil => []

/-- Modelled from the spec: `KeyValueTags.KeyExists` of package `keyvaluetags`, which is not
among the sources: whether the tag set has the key. -/
def KeyValueTags.KeyExists (tags : KeyValueTags) (key : String) : Bool :=
  (tags.get? key).isSome

/-- Modelled from the spec: `KeyValueTags.KeyValue` of package `keyvaluetags`, which is not
among the sources (`valueFor`): the value of the key, absent when the key is absent or has no
value. -/
def KeyValueTags.KeyValue (tags : KeyValueTags) (key : String) : Option String :=
  match tags.get? key with
  | some (some tagData) => tagData.Value
  | _ => none

/-- The `for k, v := range tags.Map()` loop of the generated `Tags`, over the entries in the
order in which `range` visits them: one tag item per entry, key and value both set. -/
def ServiceTags.loop (entries : List (String × String)) : List (Option ServiceTag) :=
  entries.map fun kv =>
    some { Key := some kv.1, Value := some kv.2, BoolFields := [], StringFields := [] }

/-- Generated `func (tags KeyValueTags) <Service>Tags() []*pkg.TagType` for a service that
has neither an identifier field nor additional boolean fields (the `else` branch of the
template). `Map` is the method `tags.Map()` of package `keyvaluetags`, which is not among the
sources, taken as a parameter: the template fixes only that it returns a map whose values
are strings, which it passes to `aws.String`. -/
def ServiceTags (Map : KeyValueTags → GoMap String) (tags : KeyValueTags) :
    List (Option ServiceTag) :=
  ServiceTags.loop (Map tags)

/-- The `AdditionalStringFields` the generated code sets: the identifier under the identifier
field name and, inside that, the resource type under the resource-type field name. -/
def additionalStringFields (d : ServiceDescriptor) (identifier resourceType : String) :
    GoMap (Option String) :=
  if d.TagTypeIdentifierField ≠ "" then
    let fields := GoMap.set [] d.TagTypeIdentifierField (some identifier)
    if d.TagResourceTypeField ≠ "" then
      fields.set d.TagResourceTypeField (some resourceType)
    else
      fields
  else
    []

/-- The `tagData` built for one typed tag item when the service has an identifier field or
additional boolean fields. -/
def typedTagData (d : ServiceDescriptor) (identifier resourceType : String) (tag : ServiceTag) :
    TagData :=
  { Value := tag.Value
    AdditionalBoolFields :=
      d.TagTypeAdditionalBoolFields.foldl (fun fields f => fields.set f (tag.boolField f)) []
    AdditionalStringFields := additionalStringFields d identifier resourceType }

/-- The loop `for _, tag := range tags { ...; m[aws.StringValue(tag.Key)] = tagData }` over a
typed slice. Reading a field of a nil item panics. -/
def tagDataLoop (d : ServiceDescriptor) (identifier resourceType : String) :
    List (Option ServiceTag) → GoMap (Option TagData) →
      Except RuntimePanic (GoMap (Option TagData))
  | [], m => .ok m
  | none :: _, _ => .error .nilDereference
  | some tag :: rest, m =>
    tagDataLoop d identifier resourceType rest
      (m.set (aws.StringValue tag.Key) (some (typedTagData d identifier resourceType tag)))

/-- The loop `for _, tag := range tags { m[aws.StringValue(tag.Key)] = tag.Value }` over a
typed slice. Reading a field of a nil item panics. -/
def stringLoop : List (Option ServiceTag) → GoMap (Option String) →
    Except RuntimePanic (GoMap (Option String))
  | [], m => .ok m
  | none :: _, _ => .error .nilDereference
  | some tag :: rest, m => stringLoop rest (m.set (aws.StringValue tag.Key) tag.Value)

/-- The body of `case []*pkg.TagType:` and of `case []*pkg.TagType2:`. -/
def typedCase (d : ServiceDescriptor) (identifier resourceType : String)
    (tags : List (Option ServiceTag)) : Except RuntimePanic KeyValueTags :=
  if d.TagTypeIdentifierField ≠ "" ∨ d.TagTypeAdditionalBoolFields ≠ [] then
    match tagDataLoop d identifier resourceType tags [] with
    | .ok m => .ok (New (.tagDataMap m))
    | .error p => .error p
  else
    match stringLoop tags [] with
    | .ok m => .ok (New (.stringPtrMap m))
    | .error p => .error p

/-- The `tagData` built for one configuration record in `case []interface{}:`. The string
forms of the boolean fields are read for the service `autoscaling` only. -/
def recordTagData (d : ServiceDescriptor) (ToSnakeCase : String → String)
    (identifier resourceType : String) (tfMap : GoMap TfValue) : TagData :=
  let boolFields : GoMap (Option Bool) :=
    d.TagTypeAdditionalBoolFields.foldl
      (fun fields f =>
        match assertBool tfMap (ToSnakeCase f) with
        | some v => fields.set f (some v)
        | none => fields)
      []
  let boolFields : GoMap (Option Bool) :=
    if d.serviceName = "autoscaling" then
      d.TagTypeAdditionalBoolFields.foldl
        (fun fields f =>
          match assertString tfMap (ToSnakeCase f) with
          | some v => fields.set f (some (strconv.ParseBool v))
          | none => fields)
        boolFields
    else
      boolFields
  { Value := assertString tfMap "value"
    AdditionalBoolFields := if d.TagTypeAdditionalBoolFields ≠ [] then boolFields else []
    AdditionalStringFields := additionalStringFields d identifier resourceType }

/-- The loop of `case []interface{}:`; an element that is not a record, or whose `"key"`
entry is not a string, is passed over by `continue`. -/
def recordLoop (d : ServiceDescriptor) (ToSnakeCase : String → String)
    (identifier resourceType : String) :
    List TfItem → GoMap (Option TagData) → GoMap (Option TagData)
  | [], result => result
  | .other _ :: rest, result => recordLoop d ToSnakeCase identifier resourceType rest result
  | .record tfMap :: rest, result =>
    match assertString tfMap "key" with
    | none => recordLoop d ToSnakeCase identifier resourceType rest result
    | some key =>
      recordLoop d ToSnakeCase identifier resourceType rest
        (result.set key (some (recordTagData d ToSnakeCase identifier resourceType tfMap)))

/-- Generated `func <Service>KeyValueTags(tags interface{}, ...) KeyValueTags`, the form
with a type switch, emitted when the service has a second tag type or additional boolean
fields. `ToSnakeCase` is the template function of that name. The cases for `*schema.Set`
(which calls the function again with `tags.List()`) and `[]interface{}` exist only when the
service has additional boolean fields; without them such values reach `default`. -/
def ServiceKeyValueTags (d : ServiceDescriptor) (ToSnakeCase : String → String)
    (tags : TagsInput) (identifier resourceType : String) : Except RuntimePanic KeyValueTags :=
  match tags with
  | .primary tags => typedCase d identifier resourceType tags
  | .alternate tags => typedCase d identifier resourceType tags
  | .set list =>
    if d.TagTypeAdditionalBoolFields ≠ [] then
      .ok (New (.tagDataMap (recordLoop d ToSnakeCase identifier resourceType list [])))
    else
      .ok (New .nil)
  | .list items =>
    if d.TagTypeAdditionalBoolFields ≠ [] then
      .ok (New (.tagDataMap (recordLoop d ToSnakeCase identifier resourceType items [])))
    else
      .ok (New .nil)
  | .other => .ok (New .nil)

/-- Generated `func <Service>KeyValueTags(tags []*pkg.TagType) KeyValueTags`, the form
emitted when the service has neither a second tag type nor additional boolean fields. -/
def ServiceKeyValueTagsPlain (tags : List (Option ServiceTag)) :
    Except RuntimePanic KeyValueTags :=
  match stringLoop tags [] with
  | .ok m => .ok (New (.stringPtrMap m))
  | .error p => .error p

/-- The key of a configuration item: the string under `"key"` of a record, when there is
one. -/
def TfItem.key? : TfItem → Option String
  | .record tfMap => assertString tfMap "key"
  | .other _ => none

/-- A service with a second tag type and no further fields, as `ec2`. -/
def twoTypeService : ServiceDescriptor :=
  { serviceName := "ec2", TagType2 := "TagDescription", TagTypeIdentifierField := "",
    TagResourceTypeField := "", TagTypeAdditionalBoolFields := [] }

/-- The service `autoscaling`: second tag type, identifier, resource type and one additional
boolean field. -/
def autoscalingService : ServiceDescriptor :=
  { serviceName := "autoscaling", TagType2 := "TagDescription",
    TagTypeIdentifierField := "ResourceId", TagResourceTypeField := "ResourceType",
    TagTypeAdditionalBoolFields := ["PropagateAtLaunch"] }

/-- Snake-case names of the boolean fields used in the examples. -/
def exampleSnakeCase (s : String) : String :=
  if s = "PropagateAtLaunch" then "propagate_at_launch" else s

/-- The tag set `env = prod, flag` without auxiliary fields; the key `flag` has no value. -/
def flagTags : KeyValueTags :=
  [("env", some { AdditionalBoolFields := [], AdditionalStringFields := [], Value := some "prod" }),
   ("flag", none)]

/-- The tag set `env = prod` without auxiliary fields. -/
def envTags : KeyValueTags :=
  [("env", some { AdditionalBoolFields := [], AdditionalStringFields := [], Value := some "prod" })]

/-- A function that `Map` may be: every key is kept, a key without value gets the empty
string. -/
def mapAbsentAsEmpty (tags : KeyValueTags) : GoMap String :=
  tags.map fun kv =>
    match kv.2 with
    | some tagData => (kv.1, aws.StringValue tagData.Value)
    | none => (kv.1, "")

/-- Another function that `Map` may be: a key without value is left out. -/
def mapAbsentDropped (tags : KeyValueTags) : GoMap String :=
  tags.filterMap fun kv =>
    match kv.2 with
    | some tagData =>
      match tagData.Value with
      | some v => some (kv.1, v)
      | none => none
    | none => none

/-- A typed tag item with the given key and value pointers and no further fields set. -/
def tagItem (key value : Option String) : ServiceTag :=
  { Key := key, Value := value, BoolFields := [], StringFields := [] }

end keyvaluetags

/-! ## Clients and responses used as concrete inputs -/

namespace securityhub

/-- A client every operation of which fails with the error `e` and a nil output. -/
def Client.failing (e : SdkError) : Client :=
  { DescribeActionTargets := fun _ => (none, some e)
    GetFindingAggregator := fun _ => (none, some e)
    ListOrganizationAdminAccounts := fun _ => (none, some e)
    GetInsights := fun _ => (none, some e)
    DescribeStandardsControls := fun _ => (none, some e) }

/-- A client every operation of which succeeds with an output holding no items. -/
def Client.empty : Client :=
  { DescribeActionTargets := fun _ => (some { ActionTargets := [], NextToken := none }, none)
    GetFindingAggregator := fun _ =>
      (some { FindingAggregationRegion := none, FindingAggregatorArn := none,
              RegionLinkingMode := none, Regions := [] }, none)
    ListOrganizationAdminAccounts := fun _ =>
      (some { AdminAccounts := [], NextToken := none }, none)
    GetInsights := fun _ => (some { Insights := [], NextToken := none }, none)
    DescribeStandardsControls := fun _ => (some { Controls := [], NextToken := none }, none) }

/-- An access-denied error, not of the "resource not found" class. -/
def accessDenied : SdkError := .wrapped "operation error" (.other "AccessDeniedException" "denied")

/-- A resource-not-found exception as the SDK returns it, wrapped in an operation error. -/
def notFoundException : SdkError :=
  .wrapped "operation error" (.resourceNotFoundException "not found")

/-- An action target named `name`, stored at address `addr`. -/
def actionTarget (addr : Nat) (name : String) : ActionTarget :=
  { ActionTargetArn := some ⟨addr, name⟩, Description := none, Name := none }

/-- A client whose `DescribeActionTargets` succeeds with the given targets. -/
def Client.withActionTargets (targets : List ActionTarget) : Client :=
  { Client.empty with
    DescribeActionTargets := fun _ => (some { ActionTargets := targets, NextToken := none }, none) }

/-- A standards control with the given ARN pointer and title, all other fields zero. -/
def control (arn : Ptr String) (title : String) : StandardsControl :=
  { StandardsControl.zero with StandardsControlArn := arn, Title := some ⟨100, title⟩ }

/-- A client whose `DescribeStandardsControls` answers with the given output and error. -/
def Client.withControls (output : Option DescribeStandardsControlsOutput)
    (err : Option SdkError) : Client :=
  { Client.empty with DescribeStandardsControls := fun _ => (output, err) }

/-- The organization admin account `123456789012`, its `AccountId` stored at address 7. -/
def adminAccount : AdminAccount := { AccountId := some ⟨7, "123456789012"⟩, Status := "ENABLED" }

/-- A client whose `ListOrganizationAdminAccounts` succeeds with the given accounts. -/
def Client.withAdminAccounts (accounts : List AdminAccount) : Client :=
  { Client.empty with
    ListOrganizationAdminAccounts := fun _ =>
      (some { AdminAccounts := accounts, NextToken := none }, none) }

end securityhub

/-! ## Theorems: Security Hub finders -/

namespace securityhub

theorem errs_IsA_none : errs.IsA none = false := rfl

theorem errs_IsA_some (e : SdkError) : errs.IsA (some e) = e.isResourceNotFound := rfl

/-- An error of the "resource not found" class is not the nil error. -/
theorem exists_of_errs_IsA {err : Option SdkError} (h : errs.IsA err = true) :
    ∃ e, err = some e ∧ e.isResourceNotFound = true := by
  cases err with
  | none => simp [errs.IsA] at h
  | some e => exact ⟨e, rfl, h⟩

/-- C2: for FindActionTargetByARN, FindFindingAggregatorByARN, FindAdminAccount and
FindInsight, when the client answers the request the finder built with a non-nil error that is
not a ResourceNotFoundException, the finder returns a nil result and exactly that error,
whatever the output is. -/
theorem C2_other_error_propagated (heap : Heap) (conn : Client) (key : String) (e : SdkError)
    (he : e.isResourceNotFound = false) :
    (∀ output,
      conn.DescribeActionTargets
          { ActionTargetArns := [key], MaxResults := none, NextToken := none }
        = (output, some e) →
      FindActionTargetByARN conn key = .ok (none, some (.sdk e))) ∧
    (∀ output,
      conn.GetFindingAggregator { FindingAggregatorArn := aws.String heap key }
        = (output, some e) →
      FindFindingAggregatorByARN heap conn key = .ok (none, some (.sdk e))) ∧
    (∀ output,
      conn.ListOrganizationAdminAccounts { MaxResults := none, NextToken := none }
        = (output, some e) →
      FindAdminAccount heap conn key = .ok (none, some (.sdk e))) ∧
    (∀ output,
      conn.GetInsights
          { InsightArns := [key], MaxResults := aws.Int32 heap 1, NextToken := none }
        = (output, some e) →
      FindInsight heap conn key = .ok (none, some (.sdk e))) := by
  refine ⟨?_, ?_, ?_, ?_⟩
  · intro output h
    simp [FindActionTargetByARN, h, errs.IsA, he]
  · intro output h
    simp [FindFindingAggregatorByARN, h, errs.IsA, he]
  · intro output h
    simp [FindAdminAccount, h, errs.IsA, he]
  · intro output h
    simp [FindInsight, h, errs.IsA, he]

/-- The four finders that classify the error before reading the output return a nil
result and a NotFound error holding the client error and the request, for every response
whose error is a ResourceNotFoundException; the standards-control finder does so when the
output is not nil. -/
theorem notFound_of_resourceNotFound (heap : Heap) (conn : Client) (key key2 : String)
    (err : Option SdkError) (herr : errs.IsA err = true) :
    (∀ output,
      conn.DescribeActionTargets
          { ActionTargetArns := [key], MaxResults := none, NextToken := none }
        = (output, err) →
      FindActionTargetByARN conn key = .ok (none, some (.notFound
        { LastError := err,
          LastRequest := { ActionTargetArns := [key], MaxResults := none, NextToken := none } })))
    ∧ (∀ output,
      conn.GetFindingAggregator { FindingAggregatorArn := aws.String heap key }
        = (output, err) →
      FindFindingAggregatorByARN heap conn key = .ok (none, some (.notFound
        { LastError := err, LastRequest := { FindingAggregatorArn := aws.String heap key } })))
    ∧ (∀ output,
      conn.ListOrganizationAdminAccounts { MaxResults := none, NextToken := none }
        = (output, err) →
      FindAdminAccount heap conn key = .ok (none, some (.notFound
        { LastError := err, LastRequest := { MaxResults := none, NextToken := none } })))
    ∧ (∀ output,
      conn.GetInsights
          { InsightArns := [key], MaxResults := aws.Int32 heap 1, NextToken := none }
        = (output, err) →
      FindInsight heap conn key = .ok (none, some (.notFound
        { LastError := err,
          LastRequest :=
            { InsightArns := [key], MaxResults := aws.Int32 heap 1, NextToken := none } })))
    ∧ (∀ out,
      conn.DescribeStandardsControls
          { MaxResults := none, NextToken := none,
            StandardsSubscriptionArn := aws.String heap key }
        = (some out, err) →
      FindStandardsControlByStandardsSubscriptionARNAndStandardsControlARN heap conn key key2
        = .ok (none, some (.notFound
        { LastError := err,
          LastRequest :=
            { MaxResults := none, NextToken := none,
              StandardsSubscriptionArn := aws.String heap key } }))) := by
  refine ⟨?_, ?_, ?_, ?_, ?_⟩
  · intro output h
    simp [FindActionTargetByARN, h, herr]
  · intro output h
    simp [FindFindingAggregatorByARN, h, herr]
  · intro output h
    simp [FindAdminAccount, h, herr]
  · intro output h
    simp [FindInsight, h, herr]
  · intro out h
    simp [FindStandardsControlByStandardsSubscriptionARNAndStandardsControlARN, h, herr]

/-- C1: the standards-control finder, answered with a ResourceNotFoundException and a nil
output, does not return a NotFound error: it panics on the nil output, which it reads before
it looks at the error. -/
theorem C1_standardsControl_nil_output_panics :
    errs.IsA (some notFoundException) = true ∧
    FindStandardsControlByStandardsSubscriptionARNAndStandardsControlARN 0
        (Client.failing notFoundException) "arn:sub" "arn:control"
      = .error .nilDereference := by
  constructor <;> rfl

/-- The standards-control finder panics on every response with a nil output, whatever the
error. -/
theorem standardsControl_nil_output_panics (heap : Heap) (conn : Client)
    (standardsSubscriptionARN standardsControlARN : String) (err : Option SdkError)
    (h : conn.DescribeStandardsControls
          { MaxResults := none, NextToken := none,
            StandardsSubscriptionArn := aws.String heap standardsSubscriptionARN }
        = (none, err)) :
    FindStandardsControlByStandardsSubscriptionARNAndStandardsControlARN heap conn
        standardsSubscriptionARN standardsControlARN
      = .error .nilDereference := by
  simp [FindStandardsControlByStandardsSubscriptionARNAndStandardsControlARN, h]

/-- Witness of C2: the four finders on a client that denies access, one of them also with a
non-nil output next to the error. -/
theorem C2_other_error_propagated_witness :
    accessDenied.isResourceNotFound = false ∧
    FindActionTargetByARN (Client.failing accessDenied) "arn:a" = .ok (none, some (.sdk accessDenied))
    ∧ FindActionTargetByARN
        { Client.failing accessDenied with
          DescribeActionTargets := fun _ =>
            (some { ActionTargets := [actionTarget 1 "arn:a"], NextToken := none },
              some accessDenied) }
        "arn:a" = .ok (none, some (.sdk accessDenied))
    ∧ FindFindingAggregatorByARN 0 (Client.failing accessDenied) "arn:a"
        = .ok (none, some (.sdk accessDenied))
    ∧ FindAdminAccount 0 (Client.failing accessDenied) "123456789012"
        = .ok (none, some (.sdk accessDenied))
    ∧ FindInsight 0 (Client.failing accessDenied) "arn:a" = .ok (none, some (.sdk accessDenied)) :=
  ⟨rfl,
   (C2_other_error_propagated 0 (Client.failing accessDenied) "arn:a" accessDenied rfl).1 none rfl,
   (C2_other_error_propagated 0 _ "arn:a" accessDenied rfl).1
      (some { ActionTargets := [actionTarget 1 "arn:a"], NextToken := none }) rfl,
   (C2_other_error_propagated 0 (Client.failing accessDenied) "arn:a" accessDenied rfl).2.1
      none rfl,
   (C2_other_error_propagated 0 (Client.failing accessDenied) "123456789012" accessDenied
      rfl).2.2.1 none rfl,
   (C2_other_error_propagated 0 (Client.failing accessDenied) "arn:a" accessDenied rfl).2.2.2
      none rfl⟩

/-- C3: when the client answers FindActionTargetByARN without error and the output is nil or
its ActionTargets list has no items, the finder returns a nil result and an EmptyResult error
carrying the request it sent, whose ActionTargetArns is the one-element list of the ARN. -/
theorem C3_actionTarget_emptyResult (conn : Client) (arn : String)
    (output : Option DescribeActionTargetsOutput)
    (h : conn.DescribeActionTargets
          { ActionTargetArns := [arn], MaxResults := none, NextToken := none }
        = (output, none))
    (hempty : output = none ∨ ∃ out, output = some out ∧ out.ActionTargets.length = 0) :
    FindActionTargetByARN conn arn = .ok (none, some (.emptyResult
      { ActionTargetArns := [arn], MaxResults := none, NextToken := none })) := by
  rcases hempty with rfl | ⟨out, rfl, hlen⟩
  · simp [FindActionTargetByARN, h, errs.IsA, tfresource.NewEmptyResultError]
  · simp [FindActionTargetByARN, h, errs.IsA, tfresource.NewEmptyResultError, hlen]

/-- Witness of C3: an output without items, and a nil output. -/
theorem C3_actionTarget_emptyResult_witness :
    FindActionTargetByARN Client.empty "arn:a" = .ok (none, some (.emptyResult
      { ActionTargetArns := ["arn:a"], MaxResults := none, NextToken := none }))
    ∧ FindActionTargetByARN
        { Client.empty with DescribeActionTargets := fun _ => (none, none) } "arn:a"
      = .ok (none, some (.emptyResult
          { ActionTargetArns := ["arn:a"], MaxResults := none, NextToken := none })) :=
  ⟨C3_actionTarget_emptyResult Client.empty "arn:a"
      (some { ActionTargets := [], NextToken := none }) rfl (Or.inr ⟨_, rfl, rfl⟩),
   C3_actionTarget_emptyResult _ "arn:a" none rfl (Or.inl rfl)⟩

/-- C5: when the client answers FindActionTargetByARN without error, a list of n > 1
ActionTargets gives a nil result and a TooManyResults error with the count n (and the request),
and a list of exactly one item gives that item and a nil error. -/
theorem C5_actionTarget_tooMany_or_single (conn : Client) (arn : String)
    (out : DescribeActionTargetsOutput)
    (h : conn.DescribeActionTargets
          { ActionTargetArns := [arn], MaxResults := none, NextToken := none }
        = (some out, none)) :
    (1 < out.ActionTargets.length →
      FindActionTargetByARN conn arn = .ok (none, some (.tooManyResults out.ActionTargets.length
        { ActionTargetArns := [arn], MaxResults := none, NextToken := none })))
    ∧ (∀ target, out.ActionTargets = [target] →
      FindActionTargetByARN conn arn = .ok (some target, none)) := by
  constructor
  · intro hlen
    have h0 : out.ActionTargets.length ≠ 0 := by omega
    simp [FindActionTargetByARN, h, errs.IsA, tfresource.NewTooManyResultsError, h0, hlen]
  · intro target htarget
    simp [FindActionTargetByARN, h, errs.IsA, htarget]

/-- Witness of C5: two action targets, and one. -/
theorem C5_actionTarget_tooMany_or_single_witness :
    FindActionTargetByARN
        (Client.withActionTargets [actionTarget 1 "arn:a", actionTarget 2 "arn:a"]) "arn:a"
      = .ok (none, some (.tooManyResults 2
          { ActionTargetArns := ["arn:a"], MaxResults := none, NextToken := none }))
    ∧ FindActionTargetByARN (Client.withActionTargets [actionTarget 1 "arn:a"]) "arn:a"
      = .ok (some (actionTarget 1 "arn:a"), none) :=
  ⟨(C5_actionTarget_tooMany_or_single
      (Client.withActionTargets [actionTarget 1 "arn:a", actionTarget 2 "arn:a"]) "arn:a"
      { ActionTargets := [actionTarget 1 "arn:a", actionTarget 2 "arn:a"], NextToken := none }
      rfl).1 (by decide),
   (C5_actionTarget_tooMany_or_single (Client.withActionTargets [actionTarget 1 "arn:a"]) "arn:a"
      { ActionTargets := [actionTarget 1 "arn:a"], NextToken := none } rfl).2 _ rfl⟩

/-- The scan of the standards-control finder returns the first control whose ARN string is
the one looked for. -/
theorem FindStandardsControl_loop_first (standardsControlARN : String)
    (before after : List StandardsControl) (c result : StandardsControl)
    (hbefore : ∀ x ∈ before, aws.ToString x.StandardsControlArn ≠ standardsControlARN)
    (hc : aws.ToString c.StandardsControlArn = standardsControlARN) :
    FindStandardsControl.loop standardsControlARN (before ++ c :: after) result = c := by
  induction before with
  | nil => simp [FindStandardsControl.loop, hc]
  | cons x xs ih =>
    have hx : aws.ToString x.StandardsControlArn ≠ standardsControlARN :=
      hbefore x (List.mem_cons_self x xs)
    have hxs : ∀ y ∈ xs, aws.ToString y.StandardsControlArn ≠ standardsControlARN :=
      fun y hy => hbefore y (List.mem_cons_of_mem x hy)
    simp [FindStandardsControl.loop, hx, ih hxs]

/-- The scan of the standards-control finder leaves `result` as it was when no control has
the ARN looked for. -/
theorem FindStandardsControl_loop_none (standardsControlARN : String)
    (controls : List StandardsControl) (result : StandardsControl)
    (hnone : ∀ x ∈ controls, aws.ToString x.StandardsControlArn ≠ standardsControlARN) :
    FindStandardsControl.loop standardsControlARN controls result = result := by
  induction controls with
  | nil => rfl
  | cons x xs ih =>
    have hx : aws.ToString x.StandardsControlArn ≠ standardsControlARN :=
      hnone x (List.mem_cons_self x xs)
    have hxs : ∀ y ∈ xs, aws.ToString y.StandardsControlArn ≠ standardsControlARN :=
      fun y hy => hnone y (List.mem_cons_of_mem x hy)
    simp [FindStandardsControl.loop, hx, ih hxs]

/-- C6: when the client answers without error and with a non-nil output whose Controls list
holds a control whose StandardsControlArn string (the empty string for a nil pointer) equals
standardsControlARN, the finder returns the first such control in list order and a nil
error. -/
theorem C6_standardsControl_first_match (heap : Heap) (conn : Client)
    (standardsSubscriptionARN standardsControlARN : String)
    (out : DescribeStandardsControlsOutput) (before after : List StandardsControl)
    (c : StandardsControl)
    (h : conn.DescribeStandardsControls
          { MaxResults := none, NextToken := none,
            StandardsSubscriptionArn := aws.String heap standardsSubscriptionARN }
        = (some out, none))
    (hout : out.Controls = before ++ c :: after)
    (hbefore : ∀ x ∈ before, aws.ToString x.StandardsControlArn ≠ standardsControlARN)
    (hc : aws.ToString c.StandardsControlArn = standardsControlARN) :
    FindStandardsControlByStandardsSubscriptionARNAndStandardsControlARN heap conn
        standardsSubscriptionARN standardsControlARN
      = .ok (some c, none) := by
  simp [FindStandardsControlByStandardsSubscriptionARNAndStandardsControlARN, h, errs.IsA, hout,
    FindStandardsControl_loop_first standardsControlARN before after c _ hbefore hc]

/-- Witness of C6: the second and third controls both carry the ARN looked for; the second
is returned. -/
theorem C6_standardsControl_first_match_witness :
    FindStandardsControlByStandardsSubscriptionARNAndStandardsControlARN 0
        (Client.withControls
          (some { Controls := [control (some ⟨1, "arn:x"⟩) "x", control (some ⟨2, "arn:c"⟩) "first",
                                control (some ⟨3, "arn:c"⟩) "second"],
                  NextToken := none }) none)
        "arn:sub" "arn:c"
      = .ok (some (control (some ⟨2, "arn:c"⟩) "first"), none) :=
  C6_standardsControl_first_match 0 _ "arn:sub" "arn:c"
    { Controls := [control (some ⟨1, "arn:x"⟩) "x", control (some ⟨2, "arn:c"⟩) "first",
                   control (some ⟨3, "arn:c"⟩) "second"],
      NextToken := none }
    [control (some ⟨1, "arn:x"⟩) "x"] [control (some ⟨3, "arn:c"⟩) "second"]
    (control (some ⟨2, "arn:c"⟩) "first") rfl rfl (by decide) rfl

/-- C10: when the client answers without error and with a non-nil output in which no
control has the ARN looked for (the Controls list may be empty), the finder returns a nil
error and a non-nil pointer to the zero-value StandardsControl: neither NotFound nor
EmptyResult, and not a nil result. -/
theorem C10_standardsControl_no_match_zero_value (heap : Heap) (conn : Client)
    (standardsSubscriptionARN standardsControlARN : String)
    (out : DescribeStandardsControlsOutput)
    (h : conn.DescribeStandardsControls
          { MaxResults := none, NextToken := none,
            StandardsSubscriptionArn := aws.String heap standardsSubscriptionARN }
        = (some out, none))
    (hnone : ∀ x ∈ out.Controls, aws.ToString x.StandardsControlArn ≠ standardsControlARN) :
    FindStandardsControlByStandardsSubscriptionARNAndStandardsControlARN heap conn
        standardsSubscriptionARN standardsControlARN
      = .ok (some StandardsControl.zero, none) := by
  simp [FindStandardsControlByStandardsSubscriptionARNAndStandardsControlARN, h, errs.IsA,
    FindStandardsControl_loop_none standardsControlARN out.Controls _ hnone]

/-- Witness of C10: an empty Controls list, and a list whose only control has another ARN. -/
theorem C10_standardsControl_no_match_zero_value_witness :
    FindStandardsControlByStandardsSubscriptionARNAndStandardsControlARN 0 Client.empty
        "arn:sub" "arn:c"
      = .ok (some StandardsControl.zero, none)
    ∧ FindStandardsControlByStandardsSubscriptionARNAndStandardsControlARN 0
        (Client.withControls
          (some { Controls := [control (some ⟨1, "arn:x"⟩) "x"], NextToken := none }) none)
        "arn:sub" "arn:c"
      = .ok (some StandardsControl.zero, none) :=
  ⟨C10_standardsControl_no_match_zero_value 0 Client.empty "arn:sub" "arn:c"
      { Controls := [], NextToken := none } rfl (by simp),
   C10_standardsControl_no_match_zero_value 0 _ "arn:sub" "arn:c"
      { Controls := [control (some ⟨1, "arn:x"⟩) "x"], NextToken := none } rfl (by decide)⟩

/-- FindInsight, answered without error by a nil output or by an output whose Insights list
has no items, returns a nil result together with a nil error. -/
theorem FindInsight_empty_nil_nil (heap : Heap) (conn : Client) (arn : String)
    (output : Option GetInsightsOutput)
    (h : conn.GetInsights
          { InsightArns := [arn], MaxResults := aws.Int32 heap 1, NextToken := none }
        = (output, none))
    (hempty : output = none ∨ ∃ out, output = some out ∧ out.Insights.length = 0) :
    FindInsight heap conn arn = .ok (none, none) := by
  rcases hempty with rfl | ⟨out, rfl, hlen⟩
  · simp [FindInsight, h, errs.IsA]
  · simp [FindInsight, h, errs.IsA, hlen]

/-- C4: answered without error by an output whose Insights list is empty, FindInsight
returns a nil result with a nil error, not an EmptyResult error; FindActionTargetByARN,
answered in the same way, returns the EmptyResult error. -/
theorem C4_insight_empty_no_error :
    (Client.empty.GetInsights
        { InsightArns := ["arn:i"], MaxResults := aws.Int32 0 1, NextToken := none }
      = (some { Insights := [], NextToken := none }, none))
    ∧ FindInsight 0 Client.empty "arn:i" = .ok (none, none)
    ∧ FindActionTargetByARN Client.empty "arn:i" = .ok (none, some (.emptyResult
        { ActionTargetArns := ["arn:i"], MaxResults := none, NextToken := none })) := by
  refine ⟨rfl, rfl, rfl⟩

/-- A pointer to a variable that existed before an allocation differs from the pointer the
allocation returns, and so does the nil pointer. -/
theorem Ptr_eq_fresh (p : Ptr String) (heap : Heap) (v : String)
    (hlive : ∀ r, p = some r → r.addr < heap) :
    Ptr.eq p (aws.String heap v) = false := by
  cases p with
  | none => rfl
  | some r =>
    have hlt : r.addr < heap := hlive r rfl
    have hne : r.addr ≠ heap := by omega
    simp [Ptr.eq, aws.String, hne]

/-- The loop of FindAdminAccount never returns an account: every `AccountId` pointer of the
response existed before `aws.String` allocates, so the pointer comparison is false in every
iteration, also for an account whose `AccountId` string is the one looked for. -/
theorem FindAdminAccount_loop_none (adminAccountID : String) (accounts : List AdminAccount)
    (heap : Heap) (hlive : ∀ a ∈ accounts, ∀ r, a.AccountId = some r → r.addr < heap) :
    FindAdminAccount.loop adminAccountID heap accounts = none := by
  induction accounts generalizing heap with
  | nil => rfl
  | cons a rest ih =>
    have ha : Ptr.eq a.AccountId (aws.String heap adminAccountID) = false :=
      Ptr_eq_fresh a.AccountId heap adminAccountID (hlive a (List.mem_cons_self a rest))
    have hrest : ∀ b ∈ rest, ∀ r, b.AccountId = some r → r.addr < heap + 1 :=
      fun b hb r hr => Nat.lt_succ_of_lt (hlive b (List.mem_cons_of_mem a hb) r hr)
    simp [FindAdminAccount.loop, ha, ih (heap + 1) hrest]

/-- FindAdminAccount, answered without error by a non-nil output, returns a nil result and a
nil error whatever the accounts in the output are. -/
theorem FindAdminAccount_nil_nil (heap : Heap) (conn : Client) (adminAccountID : String)
    (out : ListOrganizationAdminAccountsOutput)
    (h : conn.ListOrganizationAdminAccounts { MaxResults := none, NextToken := none }
        = (some out, none))
    (hlive : ∀ a ∈ out.AdminAccounts, ∀ r, a.AccountId = some r → r.addr < heap) :
    FindAdminAccount heap conn adminAccountID = .ok (none, none) := by
  simp [FindAdminAccount, h, errs.IsA,
    FindAdminAccount_loop_none adminAccountID out.AdminAccounts heap hlive]

/-- C9: answered without error by an output whose only admin account has the AccountId
string looked for, FindAdminAccount returns a nil result (and a nil error), not that
account. -/
theorem C9_adminAccount_match_not_returned :
    aws.ToString adminAccount.AccountId = "123456789012"
    ∧ FindAdminAccount 8 (Client.withAdminAccounts [adminAccount]) "123456789012"
      = .ok (none, none) := by
  constructor <;> rfl

end securityhub

/-! ## Theorems: Go maps -/

namespace GoMap

variable {V W : Type}

theorem get?_set_self (m : GoMap V) (k : String) (v : V) : get? (set m k v) k = some v := by
  induction m with
  | nil => simp [set, get?]
  | cons e rest ih =>
    obtain ⟨k', v'⟩ := e
    by_cases h : k' = k
    · simp [set, get?, h]
    · simp [set, get?, h, ih]

theorem get?_set_ne (m : GoMap V) (k k' : String) (v : V) (h : k ≠ k') :
    get? (set m k v) k' = get? m k' := by
  induction m with
  | nil => simp [set, get?, h]
  | cons e rest ih =>
    obtain ⟨k1, v1⟩ := e
    by_cases h1 : k1 = k
    · subst h1
      simp [set, get?, h]
    · by_cases h2 : k1 = k'
      · subst h2
        simp [set, get?, h1]
      · simp [set, get?, h1, h2, ih]

theorem get?_eq_none_iff (m : GoMap V) (k : String) : get? m k = none ↔ k ∉ keys m := by
  induction m with
  | nil => simp [get?, keys]
  | cons e rest ih =>
    obtain ⟨k1, v1⟩ := e
    by_cases h1 : k1 = k
    · simp [get?, keys, h1]
    · have h2 : ¬ k = k1 := fun h => h1 h.symm
      simp [get?, h1, h2, ih, keys]

theorem get?_isSome_iff (m : GoMap V) (k : String) : (get? m k).isSome = true ↔ k ∈ keys m := by
  rw [← not_iff_not, Bool.not_eq_true, Option.not_isSome, Option.isNone_iff_eq_none]
  exact get?_eq_none_iff m k

theorem get?_map (m : GoMap V) (g : V → W) (k : String) :
    get? (m.map fun kv => (kv.1, g kv.2)) k = (get? m k).map g := by
  induction m with
  | nil => simp [get?]
  | cons e rest ih =>
    obtain ⟨k1, v1⟩ := e
    by_cases h1 : k1 = k
    · simp [get?, h1]
    · simp [get?, h1, ih]

/-- Storing the entries of a list one after the other: the stored keys are those of the map
before and those of the list. -/
theorem isSome_get?_foldl_set {α : Type} (key : α → String) (val : α → V) (l : List α)
    (m : GoMap V) (k : String) :
    (get? (l.foldl (fun acc a => set acc (key a) (val a)) m) k).isSome = true ↔
      (get? m k).isSome = true ∨ ∃ a ∈ l, key a = k := by
  induction l generalizing m with
  | nil => simp
  | cons a rest ih =>
    rw [List.foldl_cons, ih]
    by_cases h : key a = k
    · subst h
      simp [get?_set_self]
    · simp [h, get?_set_ne _ _ _ _ h]

/-- Storing the entries of a list one after the other: a value found afterwards was in the
map before or is the value of an entry of the list with that key. -/
theorem get?_foldl_set_cases {α : Type} (key : α → String) (val : α → V) (l : List α)
    (m : GoMap V) (k : String) (x : V)
    (h : get? (l.foldl (fun acc a => set acc (key a) (val a)) m) k = some x) :
    get? m k = some x ∨ ∃ a ∈ l, key a = k ∧ val a = x := by
  induction l generalizing m with
  | nil => exact Or.inl h
  | cons a rest ih =>
    rw [List.foldl_cons] at h
    rcases ih _ h with h0 | ⟨b, hb, hkey, hval⟩
    · by_cases hk : key a = k
      · subst hk
        rw [get?_set_self] at h0
        exact Or.inr ⟨a, List.mem_cons_self a rest, rfl, Option.some.inj h0⟩
      · rw [get?_set_ne _ _ _ _ hk] at h0
        exact Or.inl h0
    · exact Or.inr ⟨b, List.mem_cons_of_mem a hb, hkey, hval⟩

/-- Storing the entries of a list with pairwise distinct keys: each key of the list gets the
value of its entry. -/
theorem get?_foldl_set_of_nodup (g : V → W) (l : GoMap V) (m : GoMap W) (k : String)
    (hnodup : (keys l).Nodup) :
    get? (l.foldl (fun acc kv => set acc kv.1 (g kv.2)) m) k =
      match get? l k with
      | some v => some (g v)
      | none => get? m k := by
  induction l generalizing m with
  | nil => simp [get?]
  | cons e rest ih =>
    obtain ⟨k1, v1⟩ := e
    simp only [keys, List.map_cons, List.nodup_cons] at hnodup
    rw [List.foldl_cons, ih _ hnodup.2]
    by_cases h1 : k1 = k
    · subst h1
      have hnone : get? rest k1 = none := (get?_eq_none_iff rest k1).mpr hnodup.1
      simp [get?, hnone, get?_set_self]
    · simp [get?, h1, get?_set_ne _ _ _ _ h1]

end GoMap

/-! ## Theorems: generated service-tag code -/

namespace keyvaluetags

theorem KeyExists_New_tagDataMap (m : GoMap (Option TagData)) (k : String) :
    KeyValueTags.KeyExists (New (.tagDataMap m)) k = (m.get? k).isSome := rfl

theorem get?_New_stringPtrMap (m : GoMap (Option String)) (k : String) :
    GoMap.get? (New (.stringPtrMap m)) k = (m.get? k).map New.wrap :=
  GoMap.get?_map m New.wrap k

theorem KeyExists_New_stringPtrMap (m : GoMap (Option String)) (k : String) :
    KeyValueTags.KeyExists (New (.stringPtrMap m)) k = (m.get? k).isSome := by
  simp [KeyValueTags.KeyExists, get?_New_stringPtrMap]

/-- On a slice without nil items the loop storing `tag.Value` runs to its end. -/
theorem stringLoop_map_some (tags : List ServiceTag) (m : GoMap (Option String)) :
    stringLoop (tags.map some) m =
      .ok (tags.foldl (fun acc tag => acc.set (aws.StringValue tag.Key) tag.Value) m) := by
  induction tags generalizing m with
  | nil => rfl
  | cons tag rest ih => simp [stringLoop, ih]

/-- On a slice without nil items the loop storing `tagData` runs to its end. -/
theorem tagDataLoop_map_some (d : ServiceDescriptor) (identifier resourceType : String)
    (tags : List ServiceTag) (m : GoMap (Option TagData)) :
    tagDataLoop d identifier resourceType (tags.map some) m =
      .ok (tags.foldl
        (fun acc tag =>
          acc.set (aws.StringValue tag.Key) (some (typedTagData d identifier resourceType tag)))
        m) := by
  induction tags generalizing m with
  | nil => rfl
  | cons tag rest ih => simp [tagDataLoop, ih]

/-- The typed-slice case on a slice without nil items: it returns a tag set whose keys are
the key strings of the items, a nil key pointer read as the empty string. -/
theorem typedCase_keys (d : ServiceDescriptor) (identifier resourceType : String)
    (tags : List ServiceTag) :
    ∃ m, typedCase d identifier resourceType (tags.map some) = .ok m ∧
      ∀ k, m.KeyExists k = true ↔ ∃ tag ∈ tags, aws.StringValue tag.Key = k := by
  by_cases hd : d.TagTypeIdentifierField ≠ "" ∨ d.TagTypeAdditionalBoolFields ≠ []
  · have hrun := tagDataLoop_map_some d identifier resourceType tags []
    have hres : typedCase d identifier resourceType (tags.map some) = .ok (New (.tagDataMap
        (tags.foldl
          (fun acc tag =>
            acc.set (aws.StringValue tag.Key) (some (typedTagData d identifier resourceType tag)))
          []))) := by
      simp only [typedCase, if_pos hd, hrun]
    refine ⟨_, hres, ?_⟩
    intro k
    rw [KeyExists_New_tagDataMap, GoMap.isSome_get?_foldl_set]
    simp [GoMap.get?]
  · have hrun := stringLoop_map_some tags []
    have hres : typedCase d identifier resourceType (tags.map some) = .ok (New (.stringPtrMap
        (tags.foldl (fun acc tag => acc.set (aws.StringValue tag.Key) tag.Value) []))) := by
      simp only [typedCase, if_neg hd, hrun]
    refine ⟨_, hres, ?_⟩
    intro k
    rw [KeyExists_New_stringPtrMap, GoMap.isSome_get?_foldl_set]
    simp [GoMap.get?]

/-- The plain form on a slice without nil items: as the typed-slice case. -/
theorem plain_keys (tags : List ServiceTag) :
    ∃ m, ServiceKeyValueTagsPlain (tags.map some) = .ok m ∧
      ∀ k, m.KeyExists k = true ↔ ∃ tag ∈ tags, aws.StringValue tag.Key = k := by
  have hrun := stringLoop_map_some tags []
  have hres : ServiceKeyValueTagsPlain (tags.map some) = .ok (New (.stringPtrMap
      (tags.foldl (fun acc tag => acc.set (aws.StringValue tag.Key) tag.Value) []))) := by
    simp only [ServiceKeyValueTagsPlain, hrun]
  refine ⟨_, hres, ?_⟩
  intro k
  rw [KeyExists_New_stringPtrMap, GoMap.isSome_get?_foldl_set]
  simp [GoMap.get?]

/-- The record loop stores an entry exactly for the keys of the items that have one. -/
theorem recordLoop_keys (d : ServiceDescriptor) (ToSnakeCase : String → String)
    (identifier resourceType : String) (items : List TfItem) (result : GoMap (Option TagData))
    (k : String) :
    ((recordLoop d ToSnakeCase identifier resourceType items result).get? k).isSome = true ↔
      (result.get? k).isSome = true ∨ ∃ item ∈ items, item.key? = some k := by
  induction items generalizing result with
  | nil => simp [recordLoop]
  | cons item rest ih =>
    cases item with
    | other v => simp [recordLoop, ih, TfItem.key?]
    | record tfMap =>
      cases hkey : assertString tfMap "key" with
      | none => simp [recordLoop, hkey, ih, TfItem.key?]
      | some key =>
        simp only [recordLoop, hkey, ih, TfItem.key?, List.mem_cons, exists_eq_or_imp,
          Option.some.injEq]
        by_cases h : key = k
        · subst h
          simp [GoMap.get?_set_self]
        · simp [h, GoMap.get?_set_ne _ _ _ _ h]

end keyvaluetags

namespace keyvaluetags

/-- C8, counterexample: a typed tag item with a nil key pointer is not skipped, it is stored
under the empty-string key, in the plain form and in both typed cases of the type switch; and
a slice holding a nil item makes the conversion panic. -/
theorem C8_nil_key_counterexample :
    (tagItem none (some "v")).Key = none
    ∧ ServiceKeyValueTagsPlain [some (tagItem none (some "v"))]
      = .ok [("", some { AdditionalBoolFields := [], AdditionalStringFields := [],
                          Value := some "v" })]
    ∧ ServiceKeyValueTags twoTypeService exampleSnakeCase
        (.primary [some (tagItem none (some "v"))]) "" ""
      = .ok [("", some { AdditionalBoolFields := [], AdditionalStringFields := [],
                          Value := some "v" })]
    ∧ ServiceKeyValueTags twoTypeService exampleSnakeCase
        (.alternate [some (tagItem none (some "v"))]) "" ""
      = .ok [("", some { AdditionalBoolFields := [], AdditionalStringFields := [],
                          Value := some "v" })]
    ∧ ServiceKeyValueTagsPlain [some (tagItem (some "a") (some "v")), none]
      = .error .nilDereference := by
  refine ⟨rfl, rfl, rfl, rfl, rfl⟩

/-- C8, amended: on a typed slice without nil items (primary type, alternate type, or the
plain form) the conversion returns a tag set whose keys are exactly the key strings of the
items, a nil key pointer being read as the empty string and not skipped; on a
`[]interface{}`, for a service with additional boolean fields, the conversion returns a tag
set whose keys are exactly the string-typed `"key"` entries of the records, every other item
being skipped. -/
theorem C8_keys_of_conversion (d : ServiceDescriptor) (ToSnakeCase : String → String)
    (identifier resourceType : String) (tags : List ServiceTag) (items : List TfItem) :
    (∃ m, ServiceKeyValueTags d ToSnakeCase (.primary (tags.map some)) identifier resourceType
          = .ok m ∧
        ∀ k, m.KeyExists k = true ↔ ∃ tag ∈ tags, aws.StringValue tag.Key = k)
    ∧ (∃ m, ServiceKeyValueTags d ToSnakeCase (.alternate (tags.map some)) identifier
            resourceType = .ok m ∧
        ∀ k, m.KeyExists k = true ↔ ∃ tag ∈ tags, aws.StringValue tag.Key = k)
    ∧ (∃ m, ServiceKeyValueTagsPlain (tags.map some) = .ok m ∧
        ∀ k, m.KeyExists k = true ↔ ∃ tag ∈ tags, aws.StringValue tag.Key = k)
    ∧ (d.TagTypeAdditionalBoolFields ≠ [] →
        ∃ m, ServiceKeyValueTags d ToSnakeCase (.list items) identifier resourceType = .ok m ∧
          ∀ k, m.KeyExists k = true ↔ ∃ item ∈ items, item.key? = some k) := by
  refine ⟨typedCase_keys d identifier resourceType tags,
    typedCase_keys d identifier resourceType tags, plain_keys tags, ?_⟩
  intro hd
  refine ⟨New (.tagDataMap (recordLoop d ToSnakeCase identifier resourceType items [])), ?_, ?_⟩
  · simp only [ServiceKeyValueTags, if_pos hd]
  · intro k
    rw [KeyExists_New_tagDataMap, recordLoop_keys]
    simp [GoMap.get?]

/-- Witness of C8 as amended: the service `autoscaling`, a typed slice with a keyed item and
an item with a nil key, and a list of a keyed record, a record without key, a record whose
key is a number, and a value that is not a record. -/
theorem C8_keys_of_conversion_witness :
    autoscalingService.TagTypeAdditionalBoolFields ≠ []
    ∧ (∃ m, ServiceKeyValueTags autoscalingService exampleSnakeCase
          (.primary ([tagItem (some "a") (some "v"), tagItem none none].map some)) "id" "rt"
          = .ok m ∧
        ∀ k, m.KeyExists k = true ↔
          ∃ tag ∈ [tagItem (some "a") (some "v"), tagItem none none], aws.StringValue tag.Key = k)
    ∧ (∃ m, ServiceKeyValueTags autoscalingService exampleSnakeCase
          (.list [.record [("key", .string "a"), ("value", .string "v")],
                  .record [("value", .string "w")], .record [("key", .int 3)],
                  .other (.string "a")]) "id" "rt"
          = .ok m ∧
        ∀ k, m.KeyExists k = true ↔
          ∃ item ∈ [TfItem.record [("key", .string "a"), ("value", .string "v")],
                    .record [("value", .string "w")], .record [("key", .int 3)],
                    .other (.string "a")], item.key? = some k) :=
  ⟨by decide,
   (C8_keys_of_conversion autoscalingService exampleSnakeCase "id" "rt"
      [tagItem (some "a") (some "v"), tagItem none none] []).1,
   (C8_keys_of_conversion autoscalingService exampleSnakeCase "id" "rt" []
      [.record [("key", .string "a"), ("value", .string "v")],
       .record [("value", .string "w")], .record [("key", .int 3)],
       .other (.string "a")]).2.2.2 (by decide)⟩

/-- The plain conversion applied to the tag items emitted for a list of entries with
pairwise distinct keys: the result holds each key with its value, present. -/
theorem plain_loop_get? (entries : List (String × String))
    (hnodup : (GoMap.keys entries).Nodup) :
    ∃ m, ServiceKeyValueTagsPlain (ServiceTags.loop entries) = .ok m ∧
      ∀ k, GoMap.get? m k = (GoMap.get? entries k).map fun v =>
        some { AdditionalBoolFields := [], AdditionalStringFields := [], Value := some v } := by
  have hloop : ServiceTags.loop entries =
      (entries.map fun kv => tagItem (some kv.1) (some kv.2)).map some := by
    simp [ServiceTags.loop, tagItem]
  have hrun := stringLoop_map_some (entries.map fun kv => tagItem (some kv.1) (some kv.2)) []
  have hres : ServiceKeyValueTagsPlain (ServiceTags.loop entries) = .ok (New (.stringPtrMap
      ((entries.map fun kv => tagItem (some kv.1) (some kv.2)).foldl
        (fun acc tag => acc.set (aws.StringValue tag.Key) tag.Value) []))) := by
    simp only [ServiceKeyValueTagsPlain, hloop, hrun]
  refine ⟨_, hres, ?_⟩
  intro k
  rw [get?_New_stringPtrMap, List.foldl_map]
  have hfold := GoMap.get?_foldl_set_of_nodup (fun v : String => some v) entries [] k hnodup
  simp only [tagItem, aws.StringValue]
  rw [hfold]
  cases GoMap.get? entries k <;> simp [GoMap.get?, New.wrap]

/-- For a service with neither identifier field nor additional boolean fields the typed
cases of the type switch run the code of the plain form. -/
theorem typedCase_eq_plain (d : ServiceDescriptor) (identifier resourceType : String)
    (tags : List (Option ServiceTag)) (hid : d.TagTypeIdentifierField = "")
    (hbool : d.TagTypeAdditionalBoolFields = []) :
    typedCase d identifier resourceType tags = ServiceKeyValueTagsPlain tags := by
  simp [typedCase, ServiceKeyValueTagsPlain, hid, hbool]

/-- The plain conversion applied to the tag items emitted for any list of entries: every
key of the result has a present value. -/
theorem plain_loop_values_present (entries : List (String × String)) (m : KeyValueTags)
    (hm : ServiceKeyValueTagsPlain (ServiceTags.loop entries) = .ok m) (k : String)
    (hk : m.KeyExists k = true) : ∃ v, m.KeyValue k = some v := by
  have hloop : ServiceTags.loop entries =
      (entries.map fun kv => tagItem (some kv.1) (some kv.2)).map some := by
    simp [ServiceTags.loop, tagItem]
  have hrun := stringLoop_map_some (entries.map fun kv => tagItem (some kv.1) (some kv.2)) []
  have hres : ServiceKeyValueTagsPlain (ServiceTags.loop entries) = .ok (New (.stringPtrMap
      ((entries.map fun kv => tagItem (some kv.1) (some kv.2)).foldl
        (fun acc tag => acc.set (aws.StringValue tag.Key) tag.Value) []))) := by
    simp only [ServiceKeyValueTagsPlain, hloop, hrun]
  rw [hres] at hm
  cases hm
  rw [KeyExists_New_stringPtrMap] at hk
  obtain ⟨x, hx⟩ := Option.isSome_iff_exists.mp hk
  rcases GoMap.get?_foldl_set_cases _ _ _ _ k x hx with h0 | ⟨tag, htag, _, hval⟩
  · simp [GoMap.get?] at h0
  · obtain ⟨kv, _, rfl⟩ := List.mem_map.mp htag
    refine ⟨kv.2, ?_⟩
    simp only [tagItem] at hval
    simp [KeyValueTags.KeyValue, get?_New_stringPtrMap, hx, ← hval, New.wrap]

/-- C7, counterexample: in the tag set `env = prod, flag` the key `flag` has no value.
Whatever `Map` returns, the round trip does not give back a tag set in which `flag` is a key
without value. -/
theorem C7_absent_value_counterexample :
    flagTags.KeyExists "flag" = true ∧ flagTags.KeyValue "flag" = none
    ∧ ¬ ∃ (Map : KeyValueTags → GoMap String) (T' : KeyValueTags),
        ServiceKeyValueTagsPlain (ServiceTags Map flagTags) = .ok T'
        ∧ T'.KeyExists "flag" = flagTags.KeyExists "flag"
        ∧ T'.KeyValue "flag" = flagTags.KeyValue "flag" := by
  refine ⟨rfl, rfl, ?_⟩
  rintro ⟨Map, T', hres, hexists, hvalue⟩
  have hflag : flagTags.KeyExists "flag" = true := rfl
  have hnone : flagTags.KeyValue "flag" = none := rfl
  rw [hflag] at hexists
  rw [hnone] at hvalue
  obtain ⟨v, hv⟩ := plain_loop_values_present (Map flagTags) T' hres "flag" hexists
  rw [hvalue] at hv
  cases hv

/-- The round trip of `env = prod, flag` with the two example functions for `Map`: the key
`flag` comes back with the empty string, or does not come back. -/
theorem roundtrip_flagTags_examples :
    ServiceKeyValueTagsPlain (ServiceTags mapAbsentAsEmpty flagTags)
      = .ok [("env", some { AdditionalBoolFields := [], AdditionalStringFields := [],
                             Value := some "prod" }),
             ("flag", some { AdditionalBoolFields := [], AdditionalStringFields := [],
                              Value := some "" })]
    ∧ ServiceKeyValueTagsPlain (ServiceTags mapAbsentDropped flagTags)
      = .ok [("env", some { AdditionalBoolFields := [], AdditionalStringFields := [],
                             Value := some "prod" })] := by
  constructor <;> rfl

/-- C7, amended: for a list-shaped service without identifier or additional boolean fields
and a tag set T, let `Map` return a map with pairwise distinct keys, all of them keys of T,
that holds every key with a value in T under that value. Then the round trip through the
generated `Tags` and `KeyValueTags` returns a tag set in which every key is a key of T and
has a present value, and every key with a value in T comes back with that value; so it
returns the key/value pairs of T exactly when no key of T lacks a value. -/
theorem C7_roundtrip_present_values (Map : KeyValueTags → GoMap String) (T : KeyValueTags)
    (hnodup : (GoMap.keys (Map T)).Nodup)
    (hkeys : ∀ k, k ∈ GoMap.keys (Map T) → T.KeyExists k = true)
    (hvalues : ∀ k v, T.KeyValue k = some v → GoMap.get? (Map T) k = some v) :
    ∃ T', ServiceKeyValueTagsPlain (ServiceTags Map T) = .ok T'
      ∧ (∀ (d : ServiceDescriptor) (ToSnakeCase : String → String)
          (identifier resourceType : String),
          d.TagTypeIdentifierField = "" → d.TagTypeAdditionalBoolFields = [] →
          ServiceKeyValueTags d ToSnakeCase (.primary (ServiceTags Map T)) identifier
            resourceType = .ok T')
      ∧ (∀ k, T'.KeyExists k = true → T.KeyExists k = true ∧ ∃ v, T'.KeyValue k = some v)
      ∧ (∀ k v, T.KeyValue k = some v → T'.KeyExists k = true ∧ T'.KeyValue k = some v)
      ∧ ((∀ k, T.KeyExists k = true → ∃ v, T.KeyValue k = some v) →
          ∀ k, T'.KeyExists k = T.KeyExists k ∧ T'.KeyValue k = T.KeyValue k) := by
  obtain ⟨m, hm, hget⟩ := plain_loop_get? (Map T) hnodup
  have hfrom : ∀ k, m.KeyExists k = true →
      T.KeyExists k = true ∧ ∃ v, m.KeyValue k = some v := by
    intro k hk
    refine ⟨hkeys k ?_, plain_loop_values_present (Map T) m hm k hk⟩
    have hsome : (GoMap.get? (Map T) k).isSome = true := by
      simpa [KeyValueTags.KeyExists, hget k] using hk
    exact (GoMap.get?_isSome_iff (Map T) k).mp hsome
  have hto : ∀ k v, T.KeyValue k = some v → m.KeyExists k = true ∧ m.KeyValue k = some v := by
    intro k v hv
    simp [KeyValueTags.KeyExists, KeyValueTags.KeyValue, hget k, hvalues k v hv]
  refine ⟨m, hm, ?_, hfrom, hto, ?_⟩
  · intro d ToSnakeCase identifier resourceType hid hbool
    simp only [ServiceKeyValueTags]
    rw [typedCase_eq_plain d identifier resourceType _ hid hbool]
    exact hm
  · intro hall k
    cases hT : T.KeyExists k with
    | true =>
      obtain ⟨v, hv⟩ := hall k hT
      rw [(hto k v hv).1, (hto k v hv).2, hv]
      exact ⟨rfl, rfl⟩
    | false =>
      have hm' : m.KeyExists k = false := by
        cases hmk : m.KeyExists k with
        | false => rfl
        | true => rw [(hfrom k hmk).1] at hT; cases hT
      have hTnone : GoMap.get? T k = none := by
        simpa [KeyValueTags.KeyExists] using hT
      have hmnone : GoMap.get? m k = none := by
        simpa [KeyValueTags.KeyExists] using hm'
      simp [hm', KeyValueTags.KeyValue, hTnone, hmnone]

/-- Witness of C7 as amended: the tag set `env = prod, flag` with a `Map` that gives `flag`
the empty string, and the tag set `env = prod` alone, which comes back as it is. -/
theorem C7_roundtrip_present_values_witness :
    (GoMap.keys (mapAbsentAsEmpty flagTags)).Nodup
    ∧ (∃ T', ServiceKeyValueTagsPlain (ServiceTags mapAbsentAsEmpty flagTags) = .ok T'
        ∧ (∀ k, T'.KeyExists k = true → flagTags.KeyExists k = true ∧ ∃ v, T'.KeyValue k = some v)
        ∧ (∀ k v, flagTags.KeyValue k = some v →
            T'.KeyExists k = true ∧ T'.KeyValue k = some v))
    ∧ (∃ T', ServiceKeyValueTagsPlain (ServiceTags mapAbsentDropped envTags) = .ok T'
        ∧ ∀ k, T'.KeyExists k = envTags.KeyExists k ∧ T'.KeyValue k = envTags.KeyValue k) := by
  have hkeys1 : ∀ k, k ∈ GoMap.keys (mapAbsentAsEmpty flagTags) → flagTags.KeyExists k = true := by
    intro k hk
    have hk' : k = "env" ∨ k = "flag" := by
      simpa [GoMap.keys, mapAbsentAsEmpty, flagTags] using hk
    rcases hk' with rfl | rfl <;> rfl
  have hvalues1 : ∀ k v, flagTags.KeyValue k = some v →
      GoMap.get? (mapAbsentAsEmpty flagTags) k = some v := by
    intro k v hv
    by_cases h1 : "env" = k
    · subst h1
      have : flagTags.KeyValue "env" = some "prod" := rfl
      rw [this] at hv
      cases hv
      rfl
    · by_cases h2 : "flag" = k
      · subst h2
        have : flagTags.KeyValue "flag" = none := rfl
        rw [this] at hv
        cases hv
      · simp [KeyValueTags.KeyValue, flagTags, GoMap.get?, h1, h2] at hv
  have hkeys2 : ∀ k, k ∈ GoMap.keys (mapAbsentDropped envTags) → envTags.KeyExists k = true := by
    intro k hk
    have hk' : k = "env" := by
      simpa [GoMap.keys, mapAbsentDropped, envTags] using hk
    subst hk'
    rfl
  have hvalues2 : ∀ k v, envTags.KeyValue k = some v →
      GoMap.get? (mapAbsentDropped envTags) k = some v := by
    intro k v hv
    by_cases h1 : "env" = k
    · subst h1
      have : envTags.KeyValue "env" = some "prod" := rfl
      rw [this] at hv
      cases hv
      rfl
    · simp [KeyValueTags.KeyValue, envTags, GoMap.get?, h1] at hv
  have hall2 : ∀ k, envTags.KeyExists k = true → ∃ v, envTags.KeyValue k = some v := by
    intro k hk
    by_cases h1 : "env" = k
    · subst h1
      exact ⟨"prod", rfl⟩
    · simp [KeyValueTags.KeyExists, envTags, GoMap.get?, h1] at hk
  obtain ⟨T1, h1, _, hfrom1, hto1, _⟩ :=
    C7_roundtrip_present_values mapAbsentAsEmpty flagTags (by decide) hkeys1 hvalues1
  obtain ⟨T2, h2, _, _, _, hexact2⟩ :=
    C7_roundtrip_present_values mapAbsentDropped envTags (by decide) hkeys2 hvalues2
  exact ⟨by decide, ⟨T1, h1, hfrom1, hto1⟩, ⟨T2, h2, hexact2 hall2⟩⟩

end keyvaluetags
